import Mathlib

/-!
Verification of the sf-tennis repository: a shallow embedding of its
date-phrase resolver, duration/distance text parsers, availability
extraction logic, per-target workers and batch orchestration, together
with theorems settling the specification claims.

Python strings are modelled as `String` / `List Char`; Python `float`
arithmetic is modelled by exact numerator/denominator fractions on `Nat`
(with `int(...)` as truncating division); Python `datetime` dates
are modelled by their proleptic-Gregorian rata-die day number (`Int`),
with `datetime.weekday()` recovered arithmetically.  Browser/network
effects are abstracted as per-target outcome values supplied to the
embedded control flow.
-/

/-! ## Character and substring utilities (mirroring Python `str` and `re`) -/

/-- Python regex word character (`\w`, ASCII): letter, digit or underscore. -/
def isWordChar (c : Char) : Bool := c.isAlphanum || c = '_'

/-- Maximal leading run of decimal digits. -/
def takeDigits : List Char → List Char
  | [] => []
  | c :: cs => if c.isDigit then c :: takeDigits cs else []

/-- Drop the maximal leading run of decimal digits. -/
def dropDigits : List Char → List Char
  | [] => []
  | c :: cs => if c.isDigit then dropDigits cs else c :: cs

/-- Numeric value of a digit list (as produced by `int(...)` on the matched text). -/
def digitsToNat (ds : List Char) : Nat :=
  ds.foldl (fun n c => 10 * n + (c.toNat - 48)) 0

/-- `isPrefixL pat l` : does `l` start with `pat`? -/
def isPrefixL : List Char → List Char → Bool
  | [], _ => true
  | _ :: _, [] => false
  | a :: as, b :: bs => a == b && isPrefixL as bs

/-- Python `pat in s` substring containment on char lists. -/
def containsL (pat : List Char) : List Char → Bool
  | [] => isPrefixL pat []
  | s@(_ :: rest) => isPrefixL pat s || containsL pat rest

/-- Drop leading whitespace (used for `\s*` and for `str.strip`). -/
def dropWS : List Char → List Char
  | [] => []
  | c :: cs => if c.isWhitespace then dropWS cs else c :: cs

/-- Python `str.strip()`: remove leading and trailing whitespace. -/
def trimChars (l : List Char) : List Char :=
  ((dropWS l).reverse |> dropWS).reverse

/-- Lowercase a char list (Python `str.lower()`). -/
def lowerChars (l : List Char) : List Char := l.map Char.toLower

/-- First match of `re.search(r'(\d+)', s)`: first maximal digit run, as a number. -/
def firstNum : List Char → Option Nat
  | [] => none
  | c :: cs => if c.isDigit then some (digitsToNat (c :: takeDigits cs)) else firstNum cs

/-- First match of `re.search(r'(\d+)\s*<word>', s)`: a digit run followed by
optional whitespace and the literal `word`; returns the run's value.
(Backtracking inside a digit run cannot help, since a shorter run leaves a
digit where the literal word must start.) -/
def numThenWord (word : List Char) : List Char → Option Nat
  | [] => none
  | c :: cs =>
    if c.isDigit then
      if isPrefixL word (dropWS (dropDigits cs)) then
        some (digitsToNat (c :: takeDigits cs))
      else numThenWord word cs
    else numThenWord word cs

/-- Is the next char absent or a non-word char (a `\b` boundary on the right)? -/
def nextNonWord : List Char → Bool
  | [] => true
  | c :: _ => ! isWordChar c

/-- All matches of `re.findall(r'\b(\d+)\b', s)`: maximal digit runs delimited
by non-word characters on both sides.  The flag records whether the previous
character was a word character (no `\b` there). -/
def wordTokens : Bool → List Char → List Nat
  | _, [] => []
  | prevW, c :: cs =>
    if c.isDigit && ! prevW then
      if nextNonWord (dropDigits cs) then
        digitsToNat (c :: takeDigits cs) :: wordTokens true cs
      else wordTokens true cs
    else wordTokens (isWordChar c) cs

/-- First match of `re.search(r'\b(\d{1,2})\b', s)`: a 1-2 digit run delimited
by non-word characters on both sides (a longer delimited run matches nowhere,
since its interior positions have no left boundary). -/
def findBounded12 : Bool → List Char → Option Nat
  | _, [] => none
  | prevW, c :: cs =>
    if c.isDigit && ! prevW then
      if (c :: takeDigits cs).length ≤ 2 && nextNonWord (dropDigits cs) then
        some (digitsToNat (c :: takeDigits cs))
      else findBounded12 true cs
    else findBounded12 (isWordChar c) cs

/-! ## distance_calculator.py : `parse_duration_to_seconds` (lines 232-260) -/

/-- Embedding of `DistanceCalculator.parse_duration_to_seconds`.
The Python function lowercases and strips the text, then:
if `'min'` occurs and a number is found, returns first number × 60;
else if `'hour'` or `'hr'` occurs and a number is found, first number × 3600;
else if both `(\d+)\s*hour` and `(\d+)\s*min` match, the sum; else 0. -/
def parse_duration_to_seconds (s : String) : Nat :=
  let cs := trimChars (lowerChars s.data)
  let minBranch : Option Nat :=
    if containsL "min".data cs then firstNum cs else none
  match minBranch with
  | some m => m * 60
  | none =>
    let hourBranch : Option Nat :=
      if containsL "hour".data cs || containsL "hr".data cs then firstNum cs else none
    match hourBranch with
    | some h => h * 3600
    | none =>
      match numThenWord "hour".data cs, numThenWord "min".data cs with
      | some h, some m => h * 3600 + m * 60
      | _, _ => 0

/-! ## distance_calculator.py : `parse_distance_to_meters` (lines 262-283) -/

/-- First match of `re.search(r'(\d+\.?\d*)', s)` as an exact nonnegative
fraction `(numerator, denominator)` with the denominator the power of ten of
the fractional part (Python parses the matched text with `float`; we model
the decimal value exactly). -/
def firstDecimal : List Char → Option (Nat × Nat)
  | [] => none
  | c :: cs =>
    if c.isDigit then
      match dropDigits cs with
      | '.' :: cs2 =>
        some (digitsToNat (c :: takeDigits cs) * 10 ^ (takeDigits cs2).length
                + digitsToNat (takeDigits cs2),
              10 ^ (takeDigits cs2).length)
      | _ => some (digitsToNat (c :: takeDigits cs), 1)
    else firstDecimal cs

/-- Embedding of `DistanceCalculator.parse_distance_to_meters`: lowercase and
strip, extract the first number; miles (`'mi'`/`'mile'` substring) convert by
×1609.34, km (`'km'`/`'kilometer'`) by ×1000, otherwise assume miles; no
number gives 0.  `int(...)` truncates, which for these nonnegative values is
the flooring division `/` on `Nat`. -/
def parse_distance_to_meters (s : String) : Nat :=
  let cs := trimChars (lowerChars s.data)
  match firstDecimal cs with
  | none => 0
  | some (num, den) =>
    if containsL "mi".data cs || containsL "mile".data cs then
      num * 160934 / (den * 100)
    else if containsL "km".data cs || containsL "kilometer".data cs then
      num * 1000 / den
    else
      num * 160934 / (den * 100)

/-! ## Proleptic Gregorian calendar (model of Python `datetime.date`)

A date is its rata-die number: day 1 is 0001-01-01, which is a Monday
(`datetime(1,1,1).weekday() == 0`). -/

/-- Gregorian leap year. -/
def isLeap (y : Nat) : Bool := (y % 4 == 0 && y % 100 != 0) || y % 400 == 0

/-- Days in month `m` of year `y`. -/
def daysInMonth (y m : Nat) : Nat :=
  if m = 2 then (if isLeap y then 29 else 28)
  else if m = 4 ∨ m = 6 ∨ m = 9 ∨ m = 11 then 30
  else 31

/-- `datetime(y, m, d)` succeeds exactly on these arguments
(`ValueError` otherwise). -/
def validDate (y m d : Nat) : Bool :=
  1 ≤ y && y ≤ 9999 && 1 ≤ m && m ≤ 12 && 1 ≤ d && d ≤ daysInMonth y m

/-- Days in the years 1 .. y-1. -/
def daysBeforeYear (y : Nat) : Nat :=
  let p := y - 1
  365 * p + p / 4 - p / 100 + p / 400

/-- Days in the months 1 .. m-1 of year `y`. -/
def daysBeforeMonth (y m : Nat) : Nat :=
  (List.range (m - 1)).foldl (fun acc i => acc + daysInMonth y (i + 1)) 0

/-- Rata-die number of the date `y-m-d`. -/
def toRata (y m d : Nat) : Nat := daysBeforeYear y + daysBeforeMonth y m + d

/-- Rata-die number as an integer (dates are compared and shifted in `Int`). -/
def toRataZ (y m d : Nat) : Int := (toRata y m d : Int)

/-- Python `date.weekday()` (Monday = 0) of a rata-die number. -/
def pyWeekdayZ (r : Int) : Int := (r + 6) % 7

/-! ## tennis_availability_checker.py : `parse_date_input` (lines 251-364) -/

/-- The `days_of_week` dictionary (insertion order preserved). -/
def days_of_week : List (List Char × Nat) :=
  [("monday".data, 0), ("mon".data, 0), ("m".data, 0),
   ("tuesday".data, 1), ("tue".data, 1), ("tues".data, 1), ("t".data, 1),
   ("wednesday".data, 2), ("wed".data, 2), ("w".data, 2),
   ("thursday".data, 3), ("thu".data, 3), ("thurs".data, 3), ("th".data, 3),
   ("friday".data, 4), ("fri".data, 4), ("f".data, 4),
   ("saturday".data, 5), ("sat".data, 5), ("s".data, 5),
   ("sunday".data, 6), ("sun".data, 6), ("su".data, 6)]

/-- The `month_patterns` dictionary (insertion order preserved). -/
def month_patterns : List (List Char × Nat) :=
  [("jan".data, 1), ("january".data, 1),
   ("feb".data, 2), ("february".data, 2),
   ("mar".data, 3), ("march".data, 3),
   ("apr".data, 4), ("april".data, 4),
   ("may".data, 5),
   ("jun".data, 6), ("june".data, 6),
   ("jul".data, 7), ("july".data, 7),
   ("aug".data, 8), ("august".data, 8),
   ("sep".data, 9), ("september".data, 9),
   ("oct".data, 10), ("october".data, 10),
   ("nov".data, 11), ("november".data, 11),
   ("dec".data, 12), ("december".data, 12)]

/-- The month-name loop: for the first month name occurring as a substring
with an extractable 1-2 digit day, build that date in the reference year,
rolling to the next year if strictly in the past; a `ValueError` (invalid
date) continues with the next month name. -/
def tryMonth (todayY : Nat) (todayRata : Int) (cs : List Char) :
    List (List Char × Nat) → Option Int
  | [] => none
  | (nm, mo) :: rest =>
    if containsL nm cs then
      match findBounded12 false cs with
      | some day =>
        if validDate todayY mo day then
          if toRataZ todayY mo day < todayRata then
            if validDate (todayY + 1) mo day then some (toRataZ (todayY + 1) mo day)
            else tryMonth todayY todayRata cs rest
          else some (toRataZ todayY mo day)
        else tryMonth todayY todayRata cs rest
      | none => tryMonth todayY todayRata cs rest
    else tryMonth todayY todayRata cs rest

/-- A date-component separator: `[/\-.]`. -/
def isSep (c : Char) : Bool := c = '/' || c = '-' || c = '.'

/-- Greedy `\d{1,2}` at the current position. -/
def grab12 : List Char → Option (Nat × List Char)
  | [] => none
  | c :: cs =>
    if c.isDigit then
      match cs with
      | c2 :: cs2 =>
        if c2.isDigit then some (digitsToNat [c, c2], cs2)
        else some (digitsToNat [c], cs)
      | [] => some (digitsToNat [c], [])
    else none

/-- Greedy `\d{2,4}` at the current position. -/
def grab24 (l : List Char) : Option Nat :=
  match l with
  | c1 :: c2 :: c3 :: c4 :: _ =>
    if c1.isDigit && c2.isDigit && c3.isDigit && c4.isDigit then
      some (digitsToNat [c1, c2, c3, c4])
    else if c1.isDigit && c2.isDigit && c3.isDigit then some (digitsToNat [c1, c2, c3])
    else if c1.isDigit && c2.isDigit then some (digitsToNat [c1, c2])
    else none
  | [c1, c2, c3] =>
    if c1.isDigit && c2.isDigit && c3.isDigit then some (digitsToNat [c1, c2, c3])
    else if c1.isDigit && c2.isDigit then some (digitsToNat [c1, c2])
    else none
  | [c1, c2] => if c1.isDigit && c2.isDigit then some (digitsToNat [c1, c2]) else none
  | _ => none

/-- Match `(\d{1,2})[/\-.](\d{1,2})` at the current position.  (Shrinking the
first group cannot rescue a failed separator: the next char is then a digit.) -/
def try2FieldAt (l : List Char) : Option (Nat × Nat) :=
  match grab12 l with
  | some (m, rest) =>
    match rest with
    | s :: rest2 =>
      if isSep s then (grab12 rest2).map (fun p => (m, p.1)) else none
    | [] => none
  | none => none

/-- `re.search` of the 2-field pattern: first position where it matches. -/
def search2Field : List Char → Option (Nat × Nat)
  | [] => none
  | l@(_ :: cs) =>
    match try2FieldAt l with
    | some r => some r
    | none => search2Field cs

/-- Match `(\d{1,2})[/\-.](\d{1,2})[/\-.](\d{2,4})` at the current position. -/
def try3FieldAt (l : List Char) : Option (Nat × Nat × Nat) :=
  match grab12 l with
  | some (m, rest) =>
    match rest with
    | s1 :: rest2 =>
      if isSep s1 then
        match grab12 rest2 with
        | some (d, rest3) =>
          match rest3 with
          | s2 :: rest4 =>
            if isSep s2 then (grab24 rest4).map (fun y => (m, d, y)) else none
          | [] => none
        | none => none
      else none
    | [] => none
  | none => none

/-- `re.search` of the 3-field pattern: first position where it matches. -/
def search3Field : List Char → Option (Nat × Nat × Nat)
  | [] => none
  | l@(_ :: cs) =>
    match try3FieldAt l with
    | some r => some r
    | none => search3Field cs

/-- The numeric-pattern loop (lines 329-356).  The 2-field pattern
`MM/DD` is searched FIRST; only when it does not match, or every dated it
builds raises `ValueError` (`continue`), is the 3-field `MM/DD/YY[YY]`
pattern with its explicit-year handling ever consulted. -/
def tryNumeric (todayY : Nat) (todayRata : Int) (cs : List Char) : Option Int :=
  let p3 : Option Int :=
    match search3Field cs with
    | some (mo, dy, yr) =>
      let yr := if yr < 100 then (if yr < 50 then yr + 2000 else yr + 1900) else yr
      if validDate yr mo dy then some (toRataZ yr mo dy) else none
    | none => none
  match search2Field cs with
  | some (mo, dy) =>
    if validDate todayY mo dy then
      if toRataZ todayY mo dy < todayRata then
        if validDate (todayY + 1) mo dy then some (toRataZ (todayY + 1) mo dy) else p3
      else some (toRataZ todayY mo dy)
    else p3
  | none => p3

/-- Embedding of `TennisAvailabilityChecker.parse_date_input`.  The reference
instant `datetime.now()` is modelled by its calendar date `ty-tm-td` taken at
midnight; the result is the rata-die number of the resolved date.  Branches in
source order: literal keywords; `next <weekday>`; bare weekday; month name +
day; numeric patterns; relative `N days`; otherwise `None`. -/
def parse_date_input (input : String) (ty tm td : Nat) : Option Int :=
  let cs := trimChars (lowerChars input.data)
  let todayRata : Int := toRataZ ty tm td
  if cs = "tomorrow".data ∨ cs = "tom".data then some (todayRata + 1)
  else if cs = "today".data ∨ cs = "now".data then some todayRata
  else
    match (if isPrefixL "next ".data cs then
             List.lookup (trimChars (cs.drop 5)) days_of_week
           else none) with
    | some target =>
      let diff : Int := (target : Int) - pyWeekdayZ todayRata
      some (todayRata + (if diff ≤ 0 then diff + 7 else diff))
    | none =>
      match List.lookup cs days_of_week with
      | some target =>
        let diff : Int := (target : Int) - pyWeekdayZ todayRata
        some (todayRata + (if diff < 0 then diff + 7 else diff))
      | none =>
        match tryMonth ty todayRata cs month_patterns with
        | some d => some d
        | none =>
          match tryNumeric ty todayRata cs with
          | some d => some d
          | none =>
            match numThenWord "day".data cs with
            | some n => some (todayRata + (n : Int))
            | none => none

/-! ## tennis_availability_checker.py : availability extraction (lines 427-540)

The page is abstracted by the ordered list of (raw) texts of the elements
matched by the availability XPath query (`'available'` or `'reservation'`
in their text).  We embed the `has_availability` / `availability_text`
portion of `extract_availability_info`, which claims C3 and C10 concern. -/

/-- The outcome of `extract_availability_info` that the claims concern. -/
structure AvailInfo where
  has_availability : Bool
  availability_text : String
deriving DecidableEq, Repr

/-- One iteration of the element loop (lines 466-473): skip empty (stripped)
text; an element containing `'no free spots'` sets the flag false, one
containing `'available'` (and not `'no free spots'`) sets it true, any other
element leaves it unchanged; non-empty text is appended to the transcript. -/
def availStep (acc : Bool × List Char) (s : String) : Bool × List Char :=
  let t := trimChars s.data
  if t = [] then acc
  else
    let low := lowerChars t
    let b :=
      if containsL "no free spots".data low then false
      else if containsL "available".data low && ! containsL "no free spots".data low then true
      else acc.1
    (b, acc.2 ++ t ++ " | ".data)

/-- Python `rstrip(' | ')`: remove trailing characters from the set `{' ', '|'}`. -/
def rstripBarSpace (l : List Char) : List Char :=
  (l.reverse.dropWhile (fun c => c = ' ' || c = '|')).reverse

/-- Embedding of `extract_availability_info` (the `has_availability` and
`availability_text` fields): the flag starts `False` and is updated by the
element loop; the transcript is the non-empty element texts joined by
`" | "` and right-stripped. -/
def extract_availability_info (texts : List String) : AvailInfo :=
  let r := texts.foldl availStep (false, [])
  ⟨r.1, ⟨rstripBarSpace r.2⟩⟩

/-- The signal a single element's text contributes to `has_availability`:
`some false` for a negative match, `some true` for a positive one, `none`
when the element leaves the flag unchanged. -/
def availabilitySignal (s : String) : Option Bool :=
  let t := trimChars s.data
  if t = [] then none
  else
    let low := lowerChars t
    if containsL "no free spots".data low then some false
    else if containsL "available".data low && ! containsL "no free spots".data low then some true
    else none

/-! ## tennis_availability_checker.py : `find_duration_for_time_element`
(lines 366-425) -/

/-- A time-slot element together with the document region the function can
reach from it: its own text, its parent's text, its siblings' texts, and the
texts of descendants with duration-related classes. -/
structure TimeElement where
  text : String
  parentText : String
  siblingTexts : List String
  durationClassTexts : List String

/-- First integer token of the (stripped) text lying in the inclusive
duration range [30, 180]. -/
def firstInRange (s : String) : Option Nat :=
  (wordTokens false (trimChars s.data)).find? (fun n => decide (30 ≤ n) && decide (n ≤ 180))

/-- The sibling loop: only siblings whose stripped text is non-empty and
shorter than 10 characters are scanned. -/
def siblingScan : List String → Option Nat
  | [] => none
  | s :: ss =>
    let t := trimChars s.data
    if t ≠ [] && t.length < 10 then
      match firstInRange s with
      | some n => some n
      | none => siblingScan ss
    else siblingScan ss

/-- The duration-class loop: every matched descendant's text is scanned. -/
def durationScan : List String → Option Nat
  | [] => none
  | s :: ss =>
    match firstInRange s with
    | some n => some n
    | none => durationScan ss

/-- Embedding of `find_duration_for_time_element`: scan the element's own
text, then the parent's text, then qualifying siblings, then duration-class
descendants; in each the first integer token in [30, 180] wins. -/
def find_duration_for_time_element (e : TimeElement) : Option Nat :=
  match firstInRange e.text with
  | some n => some n
  | none =>
    match firstInRange e.parentText with
    | some n => some n
    | none =>
      match siblingScan e.siblingTexts with
      | some n => some n
      | none => durationScan e.durationClassTexts

/-! ## Targets, workers and batch orchestration -/

/-- A court target: `{name, url}` loaded from the scraped listing. -/
structure Court where
  name : String
  url : String
deriving DecidableEq, Repr

/-- The final state of a worker's browser handle after its probe: never
created, released (`driver.quit()` ran), or leaked (still open). -/
inductive DriverState where
  | unopened
  | released
  | leaked
deriving DecidableEq, Repr

/-! ### google_maps_distance_calculator.py : per-court worker (lines 416-465) -/

/-- The `distance_info` dict produced by `get_biking_time_from_maps`. -/
structure DistanceInfo where
  duration_text : String
  duration_seconds : Nat
  duration_minutes : Nat
  distance_text : String
  distance_meters : Nat
deriving DecidableEq, Repr

/-- What happens when one Google-Maps worker probes one court: the driver
fails to start, no maps link is found, the probe raises (with the
exception's message), or `get_biking_time_from_maps` returns its optional
result.  This abstracts the browser session. -/
inductive GMOutcome where
  | initFail
  | noMapsLink
  | raises (msg : String)
  | bikeTime (info : Option DistanceInfo)

/-- One result row of the Google-Maps batch. -/
structure CourtDistanceResult where
  court_name : String
  court_url : String
  distance_info : Option DistanceInfo
  error : Option String
deriving DecidableEq, Repr

/-- Embedding of `calculate_single_court_distance` together with the final
driver state enforced by its `try/except/finally`: every path through the
function returns exactly one result dict, and the `finally` block quits the
driver whenever one was created. -/
def gmWorker (c : Court) (out : GMOutcome) : CourtDistanceResult × DriverState :=
  match out with
  | .initFail => (⟨c.name, c.url, none, some "Failed to initialize driver"⟩, .unopened)
  | .noMapsLink => (⟨c.name, c.url, none, some "No Google Maps link found"⟩, .released)
  | .raises m => (⟨c.name, c.url, none, some m⟩, .released)
  | .bikeTime none => (⟨c.name, c.url, none, some "Could not get biking time"⟩, .released)
  | .bikeTime (some i) => (⟨c.name, c.url, some i, none⟩, .released)

/-- The result dict returned to the batch (the driver teardown is a side
effect). -/
def calculate_single_court_distance (c : Court) (out : GMOutcome) : CourtDistanceResult :=
  (gmWorker c out).1

/-! ### google_maps_distance_calculator.py : batch (lines 467-520) and
report (lines 522-553) -/

/-- Worker auto-scaling (lines 473-480): the count is rescaled by list size
exactly when it equals 4 — the code cannot tell an explicit 4 from the
default. -/
def effective_max_workers (max_workers : Nat) (numCourts : Nat) : Nat :=
  if max_workers = 4 then
    if numCourts < 10 then min 2 numCourts
    else if numCourts < 20 then min 3 numCourts
    else min 4 numCourts
  else max_workers

/-- Embedding of `calculate_all_distances`: every submitted court yields the
result of its own worker; `as_completed` hands them back in an arbitrary
completion order, modelled by letting the caller supply the completed order
of the courts.  The worker count does not influence the collected results. -/
def calculate_all_distances (env : Court → GMOutcome) (completionOrder : List Court)
    (max_workers : Nat) : List CourtDistanceResult :=
  let _ := effective_max_workers max_workers completionOrder.length
  completionOrder.map (fun c => calculate_single_court_distance c (env c))

/-- Sort key used by `save_distances`:
`x['distance_info']['duration_seconds']` (only ever applied to results whose
`distance_info` is present). -/
def durKey (r : CourtDistanceResult) : Nat :=
  match r.distance_info with
  | some i => i.duration_seconds
  | none => 0

/-- Stable insertion into a list sorted by `durKey` (≤ keeps the new element
before later equal keys, as Python's stable sort does for its original
position). -/
def insertByDur (a : CourtDistanceResult) : List CourtDistanceResult → List CourtDistanceResult
  | [] => [a]
  | b :: bs => if durKey a ≤ durKey b then a :: b :: bs else b :: insertByDur a bs

/-- Model of `list.sort(key=lambda x: x['distance_info']['duration_seconds'])`:
a sort producing a non-decreasing rearrangement by `durKey`. -/
def sortByDur : List CourtDistanceResult → List CourtDistanceResult
  | [] => []
  | a :: as => insertByDur a (sortByDur as)

/-- The persisted `court_distances.json` payload. -/
structure DistanceData where
  origin_address : String
  total_courts : Nat
  successful_calculations : Nat
  failed_calculations : Nat
  courts_by_distance : List CourtDistanceResult
  failed_courts : List CourtDistanceResult
deriving DecidableEq, Repr

/-- Embedding of `save_distances`: partition the results on presence of
`distance_info`, sort the successful part ascending by duration, keep the
failed part in collection order. -/
def save_distances (origin_address : String) (results : List CourtDistanceResult) :
    DistanceData :=
  let successful := results.filter (fun r => r.distance_info.isSome)
  let failed := results.filter (fun r => ! r.distance_info.isSome)
  { origin_address := origin_address
    total_courts := results.length
    successful_calculations := successful.length
    failed_calculations := failed.length
    courts_by_distance := sortByDur successful
    failed_courts := failed }

/-! ### tennis_availability_checker.py : per-court worker (lines 594-637)
and parallel batch (lines 639-683) -/

/-- What happens when one availability worker probes one court: driver
startup fails, the probe raises (message preserved), or
`check_tennis_availability` returns its optional extraction. -/
inductive TennisOutcome where
  | initFail
  | raises (msg : String)
  | checked (a : Option AvailInfo)

/-- One result row of the availability batch. -/
structure CourtCheckResult where
  court : String
  url : String
  availability : Option AvailInfo
  error : Option String
  success : Bool
deriving DecidableEq, Repr

/-- Embedding of `check_single_court` with the final driver state enforced
by its `try/except/finally`: the `finally` runs `checker.close()` on every
exit path (a no-op when the driver never started). -/
def check_single_court (c : Court) (out : TennisOutcome) : CourtCheckResult × DriverState :=
  match out with
  | .initFail => (⟨c.name, c.url, none, some "Failed to initialize driver", false⟩, .unopened)
  | .raises m => (⟨c.name, c.url, none, some m, false⟩, .released)
  | .checked (some a) => (⟨c.name, c.url, some a, none, true⟩, .released)
  | .checked none => (⟨c.name, c.url, none, some "No availability data found", false⟩, .released)

/-- Embedding of `check_all_courts_parallel`: one result per submitted court,
collected in completion order. -/
def check_all_courts_parallel (env : Court → TennisOutcome)
    (completionOrder : List Court) : List CourtCheckResult :=
  completionOrder.map (fun c => (check_single_court c (env c)).1)

/-! ## Helper lemmas -/

theorem availStep_fst (acc : Bool × List Char) (s : String) :
    (availStep acc s).1 = (availabilitySignal s).getD acc.1 := by
  unfold availStep availabilitySignal
  dsimp only
  split_ifs <;> simp

theorem foldl_availStep (texts : List String) (b : Bool) (acc : List Char) :
    (texts.foldl availStep (b, acc)).1
      = (texts.filterMap availabilitySignal).getLastD b := by
  induction texts generalizing b acc with
  | nil => simp
  | cons t ts ih =>
    rw [List.foldl_cons, List.filterMap_cons]
    have hpair : availStep (b, acc) t
        = ((availStep (b, acc) t).1, (availStep (b, acc) t).2) := rfl
    rw [hpair, ih, availStep_fst]
    cases hs : availabilitySignal t
    · simp only [hs, Option.getD_none]
    · simp only [hs, Option.getD_some, List.getLastD_cons]

theorem insertByDur_perm (a : CourtDistanceResult) (l : List CourtDistanceResult) :
    (insertByDur a l).Perm (a :: l) := by
  induction l with
  | nil => simp [insertByDur]
  | cons b bs ih =>
    unfold insertByDur
    split_ifs
    · exact List.Perm.refl _
    · exact (ih.cons b).trans (List.Perm.swap a b bs)

theorem sortByDur_perm (l : List CourtDistanceResult) : (sortByDur l).Perm l := by
  induction l with
  | nil => simp [sortByDur]
  | cons a as ih => exact (insertByDur_perm a (sortByDur as)).trans (ih.cons a)

theorem insertByDur_pairwise (a : CourtDistanceResult) (l : List CourtDistanceResult)
    (h : l.Pairwise (fun x y => durKey x ≤ durKey y)) :
    (insertByDur a l).Pairwise (fun x y => durKey x ≤ durKey y) := by
  induction l with
  | nil => simp [insertByDur]
  | cons b bs ih =>
    rw [List.pairwise_cons] at h
    unfold insertByDur
    split_ifs with hab
    · rw [List.pairwise_cons]
      refine ⟨?_, List.pairwise_cons.mpr h⟩
      intro x hx
      rcases List.mem_cons.mp hx with rfl | hxbs
      · exact hab
      · exact le_trans hab (h.1 x hxbs)
    · rw [List.pairwise_cons]
      refine ⟨?_, ih h.2⟩
      intro x hx
      rcases List.mem_cons.mp ((insertByDur_perm a bs).mem_iff.mp hx) with rfl | hxbs
      · omega
      · exact h.1 x hxbs

theorem sortByDur_pairwise (l : List CourtDistanceResult) :
    (sortByDur l).Pairwise (fun x y => durKey x ≤ durKey y) := by
  induction l with
  | nil => simp [sortByDur]
  | cons a as ih => exact insertByDur_pairwise a (sortByDur as) ih

theorem calculate_all_distances_eq (env : Court → GMOutcome)
    (completionOrder : List Court) (W : Nat) :
    calculate_all_distances env completionOrder W
      = completionOrder.map (fun c => calculate_single_court_distance c (env c)) := rfl

theorem gmWorker_dichotomy (c : Court) (out : GMOutcome) :
    ((gmWorker c out).1.distance_info.isSome ∧ (gmWorker c out).1.error = none)
      ∨ ((gmWorker c out).1.distance_info = none ∧ (gmWorker c out).1.error.isSome) := by
  rcases out with _ | _ | m | (_ | i) <;> simp [gmWorker]

theorem check_single_court_url (c : Court) (out : TennisOutcome) :
    (check_single_court c out).1.url = c.url := by
  rcases out with _ | m | (_ | a) <;> rfl

theorem filter_of_map (f : Court → CourtCheckResult) (p : CourtCheckResult → Bool)
    (l : List Court) :
    (l.map f).filter p = (l.filter (fun u => p (f u))).map f := by
  induction l with
  | nil => rfl
  | cons h t ih =>
    by_cases hp : p (f h) <;>
      simp [List.filter_cons, hp, ih]

theorem filter_url_singleton (l : List Court) (c : Court) (hc : c ∈ l)
    (hp : l.Pairwise (fun a b => a.url ≠ b.url)) :
    l.filter (fun u => u.url == c.url) = [c] := by
  induction l with
  | nil => cases hc
  | cons h t ih =>
    rw [List.pairwise_cons] at hp
    rcases List.mem_cons.mp hc with rfl | hct
    · rw [List.filter_cons_of_pos (by simp)]
      have ht : t.filter (fun u => u.url == c.url) = [] := by
        rw [List.filter_eq_nil_iff]
        intro u hu
        simpa using fun heq => (hp.1 u hu) heq.symm
      rw [ht]
    · have hne : h.url ≠ c.url := hp.1 c hct
      rw [List.filter_cons_of_neg (by simpa using hne)]
      exact ih hct hp.2

theorem firstInRange_range (s : String) (n : Nat) :
    firstInRange s = some n → 30 ≤ n ∧ n ≤ 180 := by
  intro h
  have := List.find?_some h
  simpa using this

theorem siblingScan_range (ss : List String) (n : Nat) :
    siblingScan ss = some n → 30 ≤ n ∧ n ≤ 180 := by
  induction ss with
  | nil => intro h; cases h
  | cons s rest ih =>
    intro h
    rw [siblingScan] at h
    split_ifs at h
    · cases hf : firstInRange s with
      | none => rw [hf] at h; exact ih h
      | some m => rw [hf] at h; cases h; exact firstInRange_range s n hf
    · exact ih h

theorem durationScan_range (ss : List String) (n : Nat) :
    durationScan ss = some n → 30 ≤ n ∧ n ≤ 180 := by
  induction ss with
  | nil => intro h; cases h
  | cons s rest ih =>
    intro h
    rw [durationScan] at h
    cases hf : firstInRange s with
    | none => rw [hf] at h; exact ih h
    | some m => rw [hf] at h; cases h; exact firstInRange_range s n hf

/-! ## Claim theorems -/

/-- C2 (code bug, evaluation at the failing input): `parse_duration_to_seconds`
maps `"45 min"` to 2700 and `"2 hours"` to 7200 as claimed, but on the
combined `"1 hour 30 min"` the `'min' in text` branch fires first and returns
the FIRST number times 60, i.e. 60 — not the claimed 5400; the summing branch
(whose own comment cites exactly this example) is unreachable. -/
theorem parse_duration_combined_short_circuits :
    parse_duration_to_seconds "1 hour 30 min" = 60
    ∧ parse_duration_to_seconds "45 min" = 2700
    ∧ parse_duration_to_seconds "2 hours" = 7200
    ∧ parse_duration_to_seconds "1 hour 30 min" ≠ 5400 :=
  ⟨rfl, rfl, rfl, by decide⟩

/-- C3 (counterexample): on a page whose availability elements are, in scan
order, `"No free spots available"` (which contains the negative phrase) and
then `"available"`, `extract_availability_info` reports
`has_availability = true` — the negative phrase does NOT take priority over
the set of matched elements, contradicting the claim's order-independence. -/
theorem negative_phrase_overridden_by_later_element :
    containsL "no free spots".data
        (lowerChars (trimChars "No free spots available".data)) = true
    ∧ (extract_availability_info ["No free spots available", "available"]).has_availability
        = true :=
  ⟨rfl, rfl⟩

/-- C3 (amended): `has_availability` is computed last-match-wins: it equals
the signal of the LAST scanned element that matches an availability phrase
(`false` for a text containing `'no free spots'`, `true` for one containing
`'available'` without it), defaulting to `false`; the negative phrase has
priority only within a single element's text, so a later positive-matching
element overrides an earlier negative one. -/
theorem has_availability_last_match_wins (texts : List String) :
    (extract_availability_info texts).has_availability
      = (texts.filterMap availabilitySignal).getLastD false :=
  foldl_availStep texts false []

/-- C4 (counterexample): with reference Wednesday 2024-01-10, the computed
offset for `"next friday"` is 2 > 0, so no week is skipped: the result is
2024-01-12 — not the claimed 2024-01-19. -/
theorem next_friday_not_after_current_week :
    parse_date_input "next friday" 2024 1 10 = some (toRataZ 2024 1 12)
    ∧ toRataZ 2024 1 12 ≠ toRataZ 2024 1 19 :=
  ⟨rfl, by decide⟩

/-- C4 (amended): `next <weekday>` resolves to the next occurrence of the
weekday strictly AFTER the reference date and within the following seven
days (only an offset ≤ 0 adds a week), which can fall inside the current
week; with reference Wednesday 2024-01-10, `"next friday"` gives 2024-01-12
(the same date as bare `"friday"`), and `"tomorrow"` gives 2024-01-11. -/
theorem next_weekday_strictly_after_reference :
    parse_date_input "next friday" 2024 1 10 = some (toRataZ 2024 1 12)
    ∧ parse_date_input "friday" 2024 1 10 = some (toRataZ 2024 1 12)
    ∧ parse_date_input "tomorrow" 2024 1 10 = some (toRataZ 2024 1 11)
    ∧ ∀ ty tm td : Nat, ∃ d : Int,
        parse_date_input "next friday" ty tm td = some d
        ∧ toRataZ ty tm td < d ∧ d ≤ toRataZ ty tm td + 7 ∧ pyWeekdayZ d = 4 := by
  refine ⟨rfl, rfl, rfl, fun ty tm td => ?_⟩
  refine ⟨toRataZ ty tm td +
      (if (4 : Int) - pyWeekdayZ (toRataZ ty tm td) ≤ 0
       then (4 : Int) - pyWeekdayZ (toRataZ ty tm td) + 7
       else (4 : Int) - pyWeekdayZ (toRataZ ty tm td)), rfl, ?_, ?_, ?_⟩ <;>
    · simp only [pyWeekdayZ]
      split_ifs <;> omega

/-- C5 (code bug, evaluation at the failing input): the 2-field `MM/DD`
pattern is searched before the 3-field one and matches the prefix of any
valid `MM/DD/YY[YY]` phrase, so the explicit year is ignored: at reference
2024-01-10, `"3/15/25"` resolves to 2024-03-15 (claim: 2025-03-15) and
`"10/23/99"` to 2024-10-23 (claim: 1999-10-23 via the <50/≥50 mapping);
moreover `"1/5/30"` at reference 2024-06-01 rolls FORWARD to 2025-01-05
despite its explicit year, contradicting "no past-rollover". -/
theorem three_field_year_is_ignored :
    parse_date_input "3/15/25" 2024 1 10 = some (toRataZ 2024 3 15)
    ∧ toRataZ 2024 3 15 ≠ toRataZ 2025 3 15
    ∧ parse_date_input "10/23/99" 2024 1 10 = some (toRataZ 2024 10 23)
    ∧ toRataZ 2024 10 23 ≠ toRataZ 1999 10 23
    ∧ parse_date_input "1/5/30" 2024 6 1 = some (toRataZ 2025 1 5) :=
  ⟨rfl, by decide, rfl, by decide, rfl⟩

/-- C6: `find_duration_for_time_element` returns the first integer token
whose value lies in [30, 180]: it yields 60 on `"10:00 AM 60"` (10 and 00
are rejected), 45 on `"45 minute slot"`, and is absent on `"500"` when the
surrounding region holds no qualifying token; every returned duration lies
in [30, 180]. -/
theorem find_duration_first_token_in_range :
    find_duration_for_time_element ⟨"10:00 AM 60", "", [], []⟩ = some 60
    ∧ find_duration_for_time_element ⟨"45 minute slot", "", [], []⟩ = some 45
    ∧ find_duration_for_time_element ⟨"500", "", [], []⟩ = none
    ∧ ∀ (e : TimeElement) (n : Nat),
        find_duration_for_time_element e = some n → 30 ≤ n ∧ n ≤ 180 := by
  refine ⟨rfl, rfl, rfl, fun e n h => ?_⟩
  rw [find_duration_for_time_element] at h
  cases h1 : firstInRange e.text with
  | some m => rw [h1] at h; cases h; exact firstInRange_range _ _ h1
  | none =>
    rw [h1] at h
    cases h2 : firstInRange e.parentText with
    | some m => rw [h2] at h; cases h; exact firstInRange_range _ _ h2
    | none =>
      rw [h2] at h
      cases h3 : siblingScan e.siblingTexts with
      | some m => rw [h3] at h; cases h; exact siblingScan_range _ _ h3
      | none => rw [h3] at h; exact durationScan_range _ _ h

/-- C6 (witness): the range bound instantiated at the element whose text is
`"10:00 AM 60"`, where the extractor returns 60. -/
theorem find_duration_first_token_in_range_witness : 30 ≤ 60 ∧ 60 ≤ 180 :=
  find_duration_first_token_in_range.2.2.2 ⟨"10:00 AM 60", "", [], []⟩ 60 rfl

/-- C7: distance-text normalization — `"5 km"` gives 5000 m; `"3.1 mi"`
gives `int(3.1 × 1609.34) = 4988` m, within 1 m of the claimed ≈4989; a
miles unit multiplies by 1609.34 and truncates (`"2 miles"` → 3218); and a
unit-less value is treated as miles (`"2"` equals `"2 mi"`). -/
theorem distance_normalization_values :
    parse_distance_to_meters "5 km" = 5000
    ∧ parse_distance_to_meters "3.1 mi" = 4988
    ∧ 4989 - parse_distance_to_meters "3.1 mi" ≤ 1
    ∧ parse_distance_to_meters "3.1 mi" ≤ 4989
    ∧ parse_distance_to_meters "2 miles" = 3218
    ∧ parse_distance_to_meters "2" = parse_distance_to_meters "2 mi" :=
  ⟨rfl, rfl, by decide, by decide, rfl, rfl⟩

/-- C9 (counterexample): `calculate_all_distances` rescales the pool size
whenever `max_workers == 4`, so a caller passing 4 explicitly over 5 targets
gets 2 workers — not the `min 4 5 = 4` the claim promises. -/
theorem explicit_four_workers_rescaled :
    effective_max_workers 4 5 = 2 ∧ effective_max_workers 4 5 ≠ min 4 5 :=
  ⟨rfl, by decide⟩

/-- C9 (amended): an explicit worker count is honored exactly when it
differs from the default value 4; a count of 4 — whether defaulted or
explicitly passed — is indistinguishable and triggers auto-scaling (fewer
than 10 targets give `min 2 n` workers). -/
theorem worker_count_honored_iff_not_default :
    (∀ w n : Nat, w ≠ 4 → effective_max_workers w n = w)
    ∧ effective_max_workers 4 5 = 2
    ∧ (∀ n : Nat, n < 10 → effective_max_workers 4 n = min 2 n) :=
  ⟨fun w n h => by simp [effective_max_workers, h],
   rfl,
   fun n h => by simp [effective_max_workers, h]⟩

/-- C9 (witness): the amended statement instantiated at an explicit count of
7 over 3 targets (used exactly) and the default 4 over 9 targets
(auto-scaled to `min 2 9`). -/
theorem worker_count_honored_iff_not_default_witness :
    effective_max_workers 7 3 = 7 ∧ effective_max_workers 4 9 = min 2 9 :=
  ⟨worker_count_honored_iff_not_default.1 7 3 (by decide),
   worker_count_honored_iff_not_default.2.2 9 (by decide)⟩

/-- C10: `has_availability` is a plain boolean initialized to `False`: on a
page where no scanned element carries an availability signal — including
when the element scan dies early and contributes nothing — the extraction
reports `has_availability = false`, the same value as for a page that
positively says `"No free spots available"`. -/
theorem no_match_reports_false :
    (extract_availability_info []).has_availability = false
    ∧ (∀ texts : List String, (∀ t ∈ texts, availabilitySignal t = none) →
        (extract_availability_info texts).has_availability = false)
    ∧ (extract_availability_info ["No free spots available"]).has_availability
        = (extract_availability_info ["court membership reservation details"]).has_availability := by
  refine ⟨rfl, fun texts h => ?_, rfl⟩
  have hchar := foldl_availStep texts false []
  have hnil : texts.filterMap availabilitySignal = [] := by
    rw [List.filterMap_eq_nil_iff]
    exact h
  have : (extract_availability_info texts).has_availability
      = (texts.filterMap availabilitySignal).getLastD false := hchar
  rw [this, hnil]
  rfl

/-- C10 (witness): a page whose two scanned elements match neither phrase
reports `has_availability = false`. -/
theorem no_match_reports_false_witness :
    (extract_availability_info ["court rules", "hours 7:30am to 7:30pm"]).has_availability
      = false :=
  no_match_reports_false.2.1 ["court rules", "hours 7:30am to 7:30pm"] (by decide)

/-- C1: a batch over N targets with any worker count W ≤ N collects exactly N
results — one terminal outcome (success payload xor tagged error) per target,
no duplicates (the collection is a permutation of the per-target outcomes) —
and in the persisted report the successful subset is a non-decreasingly
duration-sorted permutation of the successful results while the failed subset
is the order-preserving subsequence of the results in completion order. -/
theorem batch_report_invariants (origin : String) (env : Court → GMOutcome)
    (targets completionOrder : List Court) (W : Nat)
    (hperm : completionOrder.Perm targets) (hW : W ≤ targets.length) :
    (calculate_all_distances env completionOrder W).length = targets.length
    ∧ (calculate_all_distances env completionOrder W).Perm
        (targets.map (fun t => calculate_single_court_distance t (env t)))
    ∧ (∀ r ∈ calculate_all_distances env completionOrder W,
        (r.distance_info.isSome ∧ r.error = none)
          ∨ (r.distance_info = none ∧ r.error.isSome))
    ∧ (save_distances origin
        (calculate_all_distances env completionOrder W)).courts_by_distance.Pairwise
          (fun a b => durKey a ≤ durKey b)
    ∧ (save_distances origin
        (calculate_all_distances env completionOrder W)).courts_by_distance.Perm
          ((calculate_all_distances env completionOrder W).filter
            (fun r => r.distance_info.isSome))
    ∧ (save_distances origin (calculate_all_distances env completionOrder W)).failed_courts
        = (calculate_all_distances env completionOrder W).filter
            (fun r => ! r.distance_info.isSome)
    ∧ (save_distances origin
        (calculate_all_distances env completionOrder W)).failed_courts.Sublist
          (calculate_all_distances env completionOrder W)
    ∧ (save_distances origin (calculate_all_distances env completionOrder W)).total_courts
        = targets.length := by
  refine ⟨?_, ?_, ?_, ?_, ?_, rfl, ?_, ?_⟩
  · rw [calculate_all_distances_eq, List.length_map, hperm.length_eq]
  · rw [calculate_all_distances_eq]
    exact hperm.map _
  · intro r hr
    rw [calculate_all_distances_eq] at hr
    obtain ⟨c, _, rfl⟩ := List.mem_map.mp hr
    exact gmWorker_dichotomy c (env c)
  · exact sortByDur_pairwise _
  · exact sortByDur_perm _
  · exact List.filter_sublist _
  · show (calculate_all_distances env completionOrder W).length = targets.length
    rw [calculate_all_distances_eq, List.length_map, hperm.length_eq]

def c1Targets : List Court := [⟨"A", "u1"⟩, ⟨"B", "u2"⟩, ⟨"C", "u3"⟩]

def c1Order : List Court := [⟨"B", "u2"⟩, ⟨"C", "u3"⟩, ⟨"A", "u1"⟩]

def c1Env : Court → GMOutcome := fun c =>
  if c.name = "A" then .bikeTime (some ⟨"10 min", 600, 10, "Unknown", 0⟩)
  else if c.name = "B" then .raises "boom"
  else .bikeTime (some ⟨"5 min", 300, 5, "Unknown", 0⟩)

/-- C1 (witness): the invariants instantiated on a concrete batch of three
targets completing in a different order than submitted, with worker count 2,
one of them failing. -/
theorem batch_report_invariants_witness :
    (calculate_all_distances c1Env c1Order 2).length = c1Targets.length
    ∧ (save_distances "1892 Market St"
        (calculate_all_distances c1Env c1Order 2)).courts_by_distance.Pairwise
          (fun a b => durKey a ≤ durKey b)
    ∧ (save_distances "1892 Market St" (calculate_all_distances c1Env c1Order 2)).failed_courts
        = (calculate_all_distances c1Env c1Order 2).filter
            (fun r => ! r.distance_info.isSome) := by
  have h := batch_report_invariants "1892 Market St" c1Env c1Targets c1Order 2
    (by decide) (by decide)
  exact ⟨h.1, h.2.2.2.1, h.2.2.2.2.2.1⟩

/-- C8: a per-target fault is confined to its own result row — the browser
handle is never left open on any exit path of either worker
(`check_single_court`, `calculate_single_court_distance`), and in a batch
whose targets have distinct URLs a target whose probe raises contributes
exactly one failed row carrying the exception's message while every other
target still contributes the row of its own outcome. -/
theorem fault_confined_to_single_target :
    (∀ (c : Court) (out : TennisOutcome),
        (check_single_court c out).2 ≠ DriverState.leaked)
    ∧ (∀ (c : Court) (out : GMOutcome), (gmWorker c out).2 ≠ DriverState.leaked)
    ∧ ∀ (completionOrder : List Court) (env : Court → TennisOutcome)
        (c : Court) (m : String),
        c ∈ completionOrder → env c = .raises m →
        completionOrder.Pairwise (fun a b => a.url ≠ b.url) →
        ((check_all_courts_parallel env completionOrder).filter
            (fun r => r.url == c.url)
          = [⟨c.name, c.url, none, some m, false⟩])
        ∧ (check_all_courts_parallel env completionOrder).length
            = completionOrder.length
        ∧ ∀ u ∈ completionOrder,
            (check_single_court u (env u)).1 ∈ check_all_courts_parallel env completionOrder := by
  refine ⟨?_, ?_, ?_⟩
  · intro c out
    rcases out with _ | m | (_ | a) <;> simp [check_single_court]
  · intro c out
    rcases out with _ | _ | m | (_ | i) <;> simp [gmWorker]
  · intro completionOrder env c m hc henv hp
    refine ⟨?_, by simp [check_all_courts_parallel], ?_⟩
    · show ((completionOrder.map (fun u => (check_single_court u (env u)).1)).filter
          (fun r => r.url == c.url)) = _
      rw [filter_of_map]
      have hpred : (fun u => ((check_single_court u (env u)).1.url == c.url))
          = (fun u : Court => u.url == c.url) := by
        funext u
        rw [check_single_court_url]
      rw [hpred, filter_url_singleton completionOrder c hc hp]
      simp [check_single_court, henv]
    · intro u hu
      exact List.mem_map.mpr ⟨u, hu, rfl⟩

def c8Order : List Court := [⟨"A", "u1"⟩, ⟨"B", "u2"⟩, ⟨"C", "u3"⟩]

def c8Env : Court → TennisOutcome := fun c =>
  if c.url = "u2" then .raises "page crashed"
  else .checked (some ⟨true, "available"⟩)

/-- C8 (witness): in a concrete three-court batch whose middle court raises,
the rows with that court's URL are exactly the one tagged error carrying the
exception message. -/
theorem fault_confined_to_single_target_witness :
    (check_all_courts_parallel c8Env c8Order).filter (fun r => r.url == "u2")
      = [⟨"B", "u2", none, some "page crashed", false⟩] :=
  (fault_confined_to_single_target.2.2 c8Order c8Env ⟨"B", "u2"⟩ "page crashed"
    (by decide) rfl (by decide)).1
